import Mathlib

/-!
# Royalty Studioz site script (`src/js/script.js`)

A shallow embedding of the contact-form validation engine and of the mobile
navigation handlers, with the properties stated about them.

Conventions of the embedding.

* The value of a form control is a JavaScript string, modelled as the list of
  its UTF-16 code units (`JSString`): `trim`, `length` and a regular expression
  without the `u` flag all work on code units.
* Text that the script only ever writes (rule messages, feedback text, class
  names, attribute values) is a Lean `String`.
* The DOM is explicit state.  A handler is a function from state to state; a
  handler that can end in a `TypeError` (a write to a container that is `null`)
  returns the state it leaves together with a flag saying that it threw.
-/

namespace RoyaltyStudioz

/-! ## JavaScript strings -/

/-- A JavaScript string as the list of its UTF-16 code units. -/
abbrev JSString := List Nat

/-- The UTF-16 code units of one Unicode scalar value. -/
def utf16Char (c : Char) : List Nat :=
  if c.toNat < 65536 then [c.toNat]
  else [55296 + (c.toNat - 65536) / 1024, 56320 + (c.toNat - 65536) % 1024]

/-- The JavaScript string holding the given text. -/
def utf16 (s : String) : JSString :=
  s.toList.flatMap utf16Char

/-- ECMAScript `WhiteSpace` and `LineTerminator` code points: the set removed by
`String.prototype.trim` and matched by the regular-expression escape `\s`. -/
def isWhiteSpace (c : Nat) : Bool :=
  c == 9 || c == 10 || c == 11 || c == 12 || c == 13 || c == 32 || c == 160 ||
  c == 5760 || (8192 ≤ c && c ≤ 8202) || c == 8232 || c == 8233 || c == 8239 ||
  c == 8287 || c == 12288 || c == 65279

/-- The method `String.prototype.trim`: drop leading and trailing white space. -/
def trim (s : JSString) : JSString :=
  ((s.dropWhile isWhiteSpace).reverse.dropWhile isWhiteSpace).reverse

/-! ## The regular expression of the email rule -/

/-- One element of a pattern: a character class matched once, or the same class
under the greedy quantifier `+`. -/
inductive Atom where
  | one (p : Nat → Bool)
  | plus (p : Nat → Bool)

/-- Backtracking match of a sequence of atoms against the whole input: the
pattern is anchored by `^` at the start and by `$` at the end (no `m` flag).
For `+` the longer match is tried first, then the shorter one. -/
def matchAtoms : List Atom → JSString → Bool
  | [], s => s.isEmpty
  | _ :: _, [] => false
  | Atom.one p :: rest, c :: s => p c && matchAtoms rest s
  | Atom.plus p :: rest, c :: s =>
      p c && (matchAtoms (Atom.plus p :: rest) s || matchAtoms rest s)

/-- The class `[^\s@]`. -/
def notSpaceAt (c : Nat) : Bool := !(isWhiteSpace c || c == 64)

/-- The pattern `/^[^\s@]+@[^\s@]+\.[^\s@]+$/`. -/
def emailRegex : List Atom :=
  [Atom.plus notSpaceAt, Atom.one (fun c => c == 64), Atom.plus notSpaceAt,
   Atom.one (fun c => c == 46), Atom.plus notSpaceAt]

/-! ## Rule table -/

/-- The three fields, in the key order of the `validators` object. -/
inductive Field where
  | name
  | email
  | message
  deriving DecidableEq, Repr

/-- One validation rule: `test` and `message`. -/
structure Rule where
  test : JSString → Bool
  message : String

/-- The rules of `validators.name`. -/
def nameRules : List Rule :=
  [ { test := fun value => decide ((trim value).length ≥ 2),
      message := "Name must be at least 2 characters long." },
    { test := fun value => decide (trim value ≠ []),
      message := "Name is required." } ]

/-- The rules of `validators.email`. -/
def emailRules : List Rule :=
  [ { test := fun value => decide (trim value ≠ []),
      message := "Email is required." },
    { test := fun value => matchAtoms emailRegex value,
      message := "Please enter a valid email address." } ]

/-- The rules of `validators.message`. -/
def messageRules : List Rule :=
  [ { test := fun value => decide (trim value ≠ []),
      message := "Message is required." },
    { test := fun value => decide ((trim value).length ≥ 10),
      message := "Message must be at least 10 characters long." } ]

/-- The `rules` component of the `validators` object. -/
def validators : Field → List Rule
  | Field.name => nameRules
  | Field.email => emailRules
  | Field.message => messageRules

/-- The keys of `validators` in enumeration order (`Object.keys`). -/
def fieldKeys : List Field := [Field.name, Field.email, Field.message]

/-! ## DOM state of the contact form -/

/-- The error container of a field (`#name-error`, `#email-error`,
`#message-error`): its text and whether its class list holds `show`. -/
structure ErrorDiv where
  textContent : String
  show_ : Bool
  deriving DecidableEq, Repr

/-- One form control with its error container.  The container is looked up on
every call and may be missing (`none`); the control itself is dereferenced
without a guard by the script and is always there. -/
structure FieldDom where
  value : JSString
  ariaInvalid : Option String
  errorClass : Bool
  errorDiv : Option ErrorDiv
  deriving DecidableEq, Repr

/-- The shared feedback container `#form-feedback`. -/
structure Feedback where
  textContent : String
  className : String
  deriving DecidableEq, Repr

/-- A pending `setTimeout` of `showFeedback`; the only callback ever scheduled
is the one that clears the feedback container. -/
structure Timer where
  delay : Nat
  deriving DecidableEq, Repr

/-- The part of the page the contact-form closure reads and writes.  The
feedback container is looked up once, without a guard, and is `none` when the
page has no `#form-feedback`. -/
structure FormState where
  name : FieldDom
  email : FieldDom
  message : FieldDom
  feedback : Option Feedback
  focus : Option Field
  timers : List Timer
  feedbackScrolls : Nat
  deriving DecidableEq, Repr

/-- The control and error container of a field. -/
def FormState.get (s : FormState) : Field → FieldDom
  | Field.name => s.name
  | Field.email => s.email
  | Field.message => s.message

/-- Replace the control and error container of a field. -/
def FormState.set (s : FormState) (f : Field) (d : FieldDom) : FormState :=
  match f with
  | Field.name => { s with name := d }
  | Field.email => { s with email := d }
  | Field.message => { s with message := d }

/-! ## Error presenter -/

/-- The effect of `showFieldError` on one field. -/
def FieldDom.showError (d : FieldDom) (message : String) : FieldDom :=
  { d with
    errorDiv := d.errorDiv.map (fun _ => { textContent := message, show_ := true }),
    ariaInvalid := some "true",
    errorClass := true }

/-- The effect of `clearFieldError` on one field. -/
def FieldDom.clearError (d : FieldDom) : FieldDom :=
  { d with
    errorDiv := d.errorDiv.map (fun _ => { textContent := "", show_ := false }),
    ariaInvalid := none,
    errorClass := false }

/-- The function `showFieldError(fieldName, message)`. -/
def showFieldError (f : Field) (message : String) (s : FormState) : FormState :=
  s.set f ((s.get f).showError message)

/-- The function `clearFieldError(fieldName)`. -/
def clearFieldError (f : Field) (s : FormState) : FormState :=
  s.set f ((s.get f).clearError)

/-! ## Field validator -/

/-- The loop over the rules: the first rule whose test fails on the value. -/
def firstFailing (rules : List Rule) (value : JSString) : Option Rule :=
  rules.find? (fun rule => !rule.test value)

/-- The function `validateField(fieldName, validators)`: the new state and the
returned boolean. -/
def validateField (f : Field) (vs : Field → List Rule) (s : FormState) :
    FormState × Bool :=
  let value := (s.get f).value
  let s1 := clearFieldError f s
  match firstFailing (vs f) value with
  | some rule => (showFieldError f rule.message s1, false)
  | none => (s1, true)

/-! ## Feedback presenter, timers and form reset -/

/-- The text passed to `showFeedback` by `handleFormSuccess`. -/
def successMessage : String :=
  "Thank you for your message! We\x27ll get back to you within 24-48 hours."

/-- The text passed to `showFeedback` by `handleFormError`. -/
def failureMessage : String := "Please fix the errors below and try again."

/-- The outcome of a handler that may throw: the state it leaves, and whether
a `TypeError` escaped from it. -/
structure Run where
  state : FormState
  raised : Bool
  deriving DecidableEq, Repr

/-- The function `showFeedback(message, type)`: write text and class name, and
for the type `success` schedule the clearing callback after 5000 ms.  The
first assignment, `feedbackDiv.textContent = message`, throws when the
container is `null`. -/
def showFeedback (message type : String) (s : FormState) : Run :=
  match s.feedback with
  | none => { state := s, raised := true }
  | some _ =>
      let s1 := { s with feedback := some { textContent := message,
                                            className := "form-feedback " ++ type } }
      if type = "success" then
        { state := { s1 with timers := s1.timers ++ [{ delay := 5000 }] }, raised := false }
      else { state := s1, raised := false }

/-- The callback given to `setTimeout`: reset the class name, empty the text.
The first assignment throws when the container is `null`. -/
def clearFeedbackCallback (s : FormState) : Run :=
  match s.feedback with
  | none => { state := s, raised := true }
  | some _ =>
      { state := { s with feedback := some { textContent := "",
                                             className := "form-feedback" } },
        raised := false }

/-- The pending timer at position `i` elapses: it leaves the queue and its
callback runs.  Nothing happens when no such timer is pending. -/
def fireTimer (i : Nat) (s : FormState) : Run :=
  if i < s.timers.length then
    clearFeedbackCallback { s with timers := s.timers.eraseIdx i }
  else { state := s, raised := false }

/-- Modelled from the spec: the default value of each control, which lives in
the page markup and not in the script.  The spec (4.4 and 8) has an accepted
submit reset all field values and clear the form, so every default is the empty
string. -/
def defaultValue (_f : Field) : JSString := []

/-- The call `form.reset()`: every control goes back to its default value. -/
def formReset (s : FormState) : FormState :=
  { s with
    name := { s.name with value := defaultValue Field.name },
    email := { s.email with value := defaultValue Field.email },
    message := { s.message with value := defaultValue Field.message } }

/-- The call `feedbackDiv.scrollIntoView(...)`, recorded as a count. -/
def scrollFeedbackIntoView (s : FormState) : FormState :=
  { s with feedbackScrolls := s.feedbackScrolls + 1 }

/-- The function `handleFormSuccess()`.  An exception thrown by `showFeedback`
ends it before the reset. -/
def handleFormSuccess (s : FormState) : Run :=
  let r := showFeedback successMessage "success" s
  if r.raised then r
  else
    let s2 := formReset r.state
    let s3 := fieldKeys.foldl (fun acc fieldName => clearFieldError fieldName acc) s2
    { state := scrollFeedbackIntoView s3, raised := false }

/-- The function `handleFormError()`.  An exception thrown by `showFeedback`
ends it before the scroll. -/
def handleFormError (s : FormState) : Run :=
  let r := showFeedback failureMessage "error" s
  if r.raised then r
  else { state := scrollFeedbackIntoView r.state, raised := false }

/-! ## Submission gate -/

/-- The variables of the submit handler while it loops over the fields. -/
structure SubmitLoop where
  state : FormState
  isValid : Bool
  firstInvalidField : Option Field
  deriving DecidableEq, Repr

/-- One turn of the `forEach` in the submit handler. -/
def submitLoopBody (acc : SubmitLoop) (fieldName : Field) : SubmitLoop :=
  let r := validateField fieldName validators acc.state
  if !r.2 then
    { state := r.1,
      isValid := false,
      firstInvalidField :=
        if acc.firstInvalidField.isNone then some fieldName else acc.firstInvalidField }
  else { acc with state := r.1 }

/-- The whole `forEach` of the submit handler. -/
def submitLoop (s : FormState) : SubmitLoop :=
  fieldKeys.foldl submitLoopBody { state := s, isValid := true, firstInvalidField := none }

/-- The listener of the `submit` event of the form.  An exception thrown by
`handleFormError` ends it before the focus call. -/
def submitHandler (s : FormState) : Run :=
  let l := submitLoop s
  if l.isValid then handleFormSuccess l.state
  else
    let r := handleFormError l.state
    if r.raised then r
    else
      match l.firstInvalidField with
      | some fieldName => { state := { r.state with focus := some fieldName }, raised := false }
      | none => r

/-- The listener of the `blur` event of a control. -/
def blurHandler (f : Field) (s : FormState) : FormState :=
  (validateField f validators s).1

/-- The listener of the `input` event of a control. -/
def inputHandler (f : Field) (s : FormState) : FormState :=
  clearFieldError f s

/-- The user edits a control: its value changes (the `input` event follows). -/
def editValue (f : Field) (v : JSString) (s : FormState) : FormState :=
  s.set f { s.get f with value := v }

/-- One transition of the contact form.  The error presenter is private to the
closure and its only call site passes the message of a rule, so the transition
through `showFieldError` carries a message that is not empty (as every message
of the table is); any such message is allowed. -/
inductive FormStep : FormState → FormState → Prop where
  | validate (f : Field) (s : FormState) : FormStep s (validateField f validators s).1
  | blur (f : Field) (s : FormState) : FormStep s (blurHandler f s)
  | showError (f : Field) (message : String) (s : FormState) :
      message ≠ "" → FormStep s (showFieldError f message s)
  | clearError (f : Field) (s : FormState) : FormStep s (clearFieldError f s)
  | input (f : Field) (s : FormState) : FormStep s (inputHandler f s)
  | submit (s : FormState) : FormStep s (submitHandler s).state
  | edit (f : Field) (v : JSString) (s : FormState) : FormStep s (editValue f v s)
  | timer (i : Nat) (s : FormState) : FormStep s (fireTimer i s).state

/-- States reachable by any number of transitions. -/
def FormReachable : FormState → FormState → Prop :=
  Relation.ReflTransGen FormStep

/-- The error container exists, has text and carries the class `show`. -/
def FieldDom.errorDisplayed (d : FieldDom) : Bool :=
  match d.errorDiv with
  | some e => e.textContent != "" && e.show_
  | none => false

/-- The control carries `aria-invalid="true"`. -/
def FieldDom.markedInvalid (d : FieldDom) : Bool :=
  d.ariaInvalid == some "true"

/-- Error display and invalid markers of one field agree. -/
def FieldDom.Agree (d : FieldDom) : Prop :=
  (d.errorDisplayed = true ↔ d.markedInvalid = true) ∧
  (d.markedInvalid = true ↔ d.errorClass = true)

/-- No error is shown on one field: an existing container is empty and hidden,
the control carries neither marker. -/
def FieldDom.NoError (d : FieldDom) : Prop :=
  (∀ e, d.errorDiv = some e → e.textContent = "" ∧ e.show_ = false) ∧
  d.markedInvalid = false ∧ d.errorClass = false

/-- No error is shown on any field. -/
def NoErrorsShown (s : FormState) : Prop :=
  ∀ f, (s.get f).NoError

/-! ## Initialisation of the contact form -/

/-- Which of the elements that `initContactForm` looks up are in the page. -/
structure Page where
  form : Bool
  nameInput : Bool
  emailInput : Bool
  messageInput : Bool
  feedbackDiv : Bool
  deriving DecidableEq, Repr

/-- Presence of the control of a field. -/
def Page.hasInput (p : Page) : Field → Bool
  | Field.name => p.nameInput
  | Field.email => p.emailInput
  | Field.message => p.messageInput

/-- Some element the contact form expects is absent. -/
def Page.someAbsent (p : Page) : Bool :=
  !p.form || !p.nameInput || !p.emailInput || !p.messageInput || !p.feedbackDiv

/-- A listener attached by `initContactForm`. -/
inductive Listener where
  | blur (f : Field)
  | input (f : Field)
  | submit
  deriving DecidableEq, Repr

/-- Outcome of `initContactForm`: the listeners attached, and whether a
`TypeError` escaped from it. -/
structure InitResult where
  listeners : List Listener
  raised : Bool
  deriving DecidableEq, Repr

/-- The `forEach` that wires `blur` and `input`: `input.addEventListener` on a
control that is `null` throws, which ends the loop and the function. -/
def attachFieldListeners (p : Page) : List Field → List Listener → InitResult
  | [], acc => { listeners := acc, raised := false }
  | f :: rest, acc =>
      if p.hasInput f then
        attachFieldListeners p rest (acc ++ [Listener.blur f, Listener.input f])
      else { listeners := acc, raised := true }

/-- The function `initContactForm()`. -/
def initContactForm (p : Page) : InitResult :=
  if !p.form then { listeners := [], raised := false }
  else
    let r := attachFieldListeners p fieldKeys []
    if r.raised then r
    else { listeners := r.listeners ++ [Listener.submit], raised := false }

/-! ## Mobile navigation -/

/-- The element `.nav__toggle`: its `aria-expanded` attribute and whether its
class list holds `active`. -/
structure NavToggle where
  ariaExpanded : Option String
  active : Bool
  deriving DecidableEq, Repr

/-- The element `.nav__menu`: whether its class list holds `active`. -/
structure NavMenu where
  active : Bool
  deriving DecidableEq, Repr

/-- The part of the page the navigation handlers read and write. -/
structure NavDom where
  toggle : Option NavToggle
  menu : Option NavMenu
  toggleFocused : Bool
  deriving DecidableEq, Repr

/-- The three statements shared by the link listener, the document click
listener and the resize listener. -/
def closeMenu (t : NavToggle) (m : NavMenu) (d : NavDom) : NavDom :=
  { d with
    menu := some { m with active := false },
    toggle := some { t with ariaExpanded := some "false", active := false } }

/-- The click listener of the toggle; `initNavigation` attaches it only when
both elements exist. -/
def toggleClickListener (d : NavDom) : NavDom :=
  match d.toggle, d.menu with
  | some t, some m =>
      let isExpanded := t.ariaExpanded == some "true"
      { d with
        toggle := some { ariaExpanded := some (if isExpanded then "false" else "true"),
                         active := !t.active },
        menu := some { active := !m.active } }
  | _, _ => d

/-- The click listener of a `.nav__link`. -/
def navLinkClickListener (d : NavDom) : NavDom :=
  match d.toggle, d.menu with
  | some t, some m => closeMenu t m d
  | _, _ => d

/-- The click listener of the document, for a target inside or outside the
toggle and the menu. -/
def documentClickListener (inToggle inMenu : Bool) (d : NavDom) : NavDom :=
  match d.toggle, d.menu with
  | some t, some m => if !inToggle && !inMenu then closeMenu t m d else d
  | _, _ => d

/-- The debounced resize listener, run with the current `window.innerWidth`. -/
def resizeListener (innerWidth : Nat) (d : NavDom) : NavDom :=
  match d.menu, d.toggle with
  | some m, some t => if innerWidth > 768 then closeMenu t m d else d
  | _, _ => d

/-- The keydown listener of the document. -/
def keydownListener (key : String) (d : NavDom) : NavDom :=
  if key = "Escape" then
    match d.menu with
    | some m =>
        if m.active then
          let d1 := { d with menu := some { m with active := false } }
          match d.toggle with
          | some t =>
              { d1 with
                toggle := some { t with ariaExpanded := some "false", active := false },
                toggleFocused := true }
          | none => d1
        else d
    | none => d
  else d

/-- The events that reach the navigation handlers. -/
inductive NavEvent where
  | toggleClick
  | navLinkClick (linkInMenu : Bool)
  | outsideClick
  | escapeKey
  | resize (innerWidth : Nat)
  deriving DecidableEq, Repr

/-- Dispatch of one event: a click runs the listener of its target and then
bubbles to the listener of the document. -/
def navStep (d : NavDom) : NavEvent → NavDom
  | NavEvent.toggleClick => documentClickListener true false (toggleClickListener d)
  | NavEvent.navLinkClick linkInMenu =>
      documentClickListener false linkInMenu (navLinkClickListener d)
  | NavEvent.outsideClick => documentClickListener false false d
  | NavEvent.escapeKey => keydownListener "Escape" d
  | NavEvent.resize innerWidth => resizeListener innerWidth d

/-- The menu is open according to the `aria-expanded` attribute. -/
def NavToggle.expanded (t : NavToggle) : Bool := t.ariaExpanded == some "true"

/-- Class `active` of the menu, class `active` of the toggle and
`aria-expanded === "true"` have the same truth value `b`. -/
def NavDom.AllAre (d : NavDom) (b : Bool) : Prop :=
  ∃ t m, d.toggle = some t ∧ d.menu = some m ∧
    m.active = b ∧ t.active = b ∧ t.expanded = b

/-- The three indicators agree. -/
def NavDom.Consistent (d : NavDom) : Prop := ∃ b, d.AllAre b

/-- The closed state written by the handlers. -/
def NavDom.Closed (d : NavDom) : Prop :=
  ∃ t m, d.toggle = some t ∧ d.menu = some m ∧
    m.active = false ∧ t.active = false ∧ t.ariaExpanded = some "false"

/-! ## The claim-side wording of the email shape -/

/-- The shape of an email value as the specification words it: one or more
characters that are neither white space nor `@`, then `@`, then one or more such
characters, then `.`, then one or more such characters, and nothing else. -/
def EmailShape (v : JSString) : Prop :=
  ∃ a b c : JSString,
    v = a ++ [64] ++ b ++ [46] ++ c ∧ a ≠ [] ∧ b ≠ [] ∧ c ≠ [] ∧
    ∀ x ∈ a ++ b ++ c, isWhiteSpace x = false ∧ x ≠ 64

/-- Validity of one field in the sense of the rule table of the spec. -/
def FieldValid (s : FormState) : Field → Prop
  | Field.name => 2 ≤ (trim s.name.value).length
  | Field.email => EmailShape s.email.value
  | Field.message => 10 ≤ (trim s.message.value).length

/-! ## Observations used in the statements -/

/-- Validation of field `f` in state `s` fails showing `msg`: `validateField`
returns `false`, the state is the one the error presenter leaves when invoked
with `msg` after the clearing, the error container (when the page has one)
holds exactly `msg` and is visible, and the control carries both markers. -/
def FailsShowing (f : Field) (s : FormState) (msg : String) : Prop :=
  (validateField f validators s).2 = false ∧
  (validateField f validators s).1 = showFieldError f msg (clearFieldError f s) ∧
  ((validateField f validators s).1.get f).errorDiv =
    (s.get f).errorDiv.map (fun _ => { textContent := msg, show_ := true }) ∧
  ((validateField f validators s).1.get f).ariaInvalid = some "true" ∧
  ((validateField f validators s).1.get f).errorClass = true

/-- Validation of field `f` in state `s` passes: `validateField` returns `true`
and leaves the field with no error shown. -/
def Passes (f : Field) (s : FormState) : Prop :=
  (validateField f validators s).2 = true ∧
  (validateField f validators s).1 = clearFieldError f s ∧
  ((validateField f validators s).1.get f).errorDiv =
    (s.get f).errorDiv.map (fun _ => { textContent := "", show_ := false }) ∧
  ((validateField f validators s).1.get f).ariaInvalid = none ∧
  ((validateField f validators s).1.get f).errorClass = false

/-- The field as `validateField` leaves it, computed from the rules, the value
and the presence of the error container only. -/
def validatedDom (vs : Field → List Rule) (f : Field) (s : FormState) : FieldDom :=
  match firstFailing (vs f) (s.get f).value with
  | some rule =>
      { value := (s.get f).value,
        ariaInvalid := some "true",
        errorClass := true,
        errorDiv := (s.get f).errorDiv.map
          (fun _ => { textContent := rule.message, show_ := true }) }
  | none =>
      { value := (s.get f).value,
        ariaInvalid := none,
        errorClass := false,
        errorDiv := (s.get f).errorDiv.map
          (fun _ => { textContent := "", show_ := false }) }

/-- Every rule of the table passes on the current value of the field. -/
def rulesPass (s : FormState) (f : Field) : Bool :=
  (firstFailing (validators f) (s.get f).value).isNone

/-- A control holding `v`, with an empty hidden error container and no marker. -/
def cleanField (v : String) : FieldDom :=
  { value := utf16 v, ariaInvalid := none, errorClass := false,
    errorDiv := some { textContent := "", show_ := false } }

/-- A form holding the three given values, with no error and an empty feedback
container. -/
def sampleForm (n e m : String) : FormState :=
  { name := cleanField n, email := cleanField e, message := cleanField m,
    feedback := some { textContent := "", className := "form-feedback" },
    focus := none, timers := [], feedbackScrolls := 0 }

/-- A form holding the three given values on a page without `#form-feedback`. -/
def formWithoutFeedback (n e m : String) : FormState :=
  { name := cleanField n, email := cleanField e, message := cleanField m,
    feedback := none,
    focus := none, timers := [], feedbackScrolls := 0 }

/-- A form in which the name control has no error container in the page. -/
def formWithoutNameErrorDiv : FormState :=
  { sampleForm "" "a@b.co" "1234567890" with
    name := { value := [], ariaInvalid := none, errorClass := false, errorDiv := none } }

/-- The field has an error container, and its display and markers agree. -/
def FieldDom.Sound (d : FieldDom) : Prop :=
  d.errorDiv.isSome = true ∧ d.Agree

/-- A page with the form and everything else but the name control. -/
def pageWithoutNameInput : Page :=
  { form := true, nameInput := false, emailInput := true, messageInput := true,
    feedbackDiv := true }

/-- A page with the form and the controls but no feedback container. -/
def pageWithoutFeedback : Page :=
  { form := true, nameInput := true, emailInput := true, messageInput := true,
    feedbackDiv := false }

/-- A page with the controls and the feedback container but no form. -/
def pageWithoutForm : Page :=
  { form := false, nameInput := true, emailInput := true, messageInput := true,
    feedbackDiv := true }

/-- A navigation with the menu closed: no class `active`, `aria-expanded` set to
the string false. -/
def closedNav : NavDom :=
  { toggle := some { ariaExpanded := some "false", active := false },
    menu := some { active := false },
    toggleFocused := false }

/-! ## Auxiliary facts: state access -/

theorem get_set_same (s : FormState) (f : Field) (d : FieldDom) :
    (s.set f d).get f = d := by
  cases f <;> rfl

theorem get_set_other (s : FormState) (f g : Field) (d : FieldDom) (h : g ≠ f) :
    (s.set f d).get g = s.get g := by
  cases f <;> cases g <;> first | rfl | exact absurd rfl h

theorem get_clearFieldError (s : FormState) (f g : Field) :
    (clearFieldError f s).get g = if g = f then (s.get f).clearError else s.get g := by
  unfold clearFieldError
  by_cases h : g = f
  · subst h; simp [get_set_same]
  · simp [h, get_set_other]

theorem get_showFieldError (s : FormState) (f g : Field) (msg : String) :
    (showFieldError f msg s).get g =
      if g = f then (s.get f).showError msg else s.get g := by
  unfold showFieldError
  by_cases h : g = f
  · subst h; simp [get_set_same]
  · simp [h, get_set_other]

/-! ## Auxiliary facts: the pattern matcher -/

theorem matchAtoms_nil (s : JSString) : matchAtoms [] s = true ↔ s = [] := by
  cases s <;> simp [matchAtoms]

theorem matchAtoms_one (p : Nat → Bool) (rest : List Atom) (s : JSString) :
    matchAtoms (Atom.one p :: rest) s = true ↔
      ∃ c t, s = c :: t ∧ p c = true ∧ matchAtoms rest t = true := by
  cases s with
  | nil => simp [matchAtoms]
  | cons c t =>
    simp only [matchAtoms, Bool.and_eq_true, List.cons.injEq]
    constructor
    · rintro ⟨h1, h2⟩
      exact ⟨c, t, ⟨rfl, rfl⟩, h1, h2⟩
    · rintro ⟨c', t', ⟨rfl, rfl⟩, h1, h2⟩
      exact ⟨h1, h2⟩

theorem matchAtoms_plus (p : Nat → Bool) (rest : List Atom) (s : JSString) :
    matchAtoms (Atom.plus p :: rest) s = true ↔
      ∃ a t, s = a ++ t ∧ a ≠ [] ∧ (∀ x ∈ a, p x = true) ∧ matchAtoms rest t = true := by
  induction s with
  | nil =>
    simp only [matchAtoms, Bool.false_eq_true, false_iff]
    rintro ⟨a, t, h, ha, -, -⟩
    cases a with
    | nil => exact ha rfl
    | cons x a => simp at h
  | cons c s ih =>
    simp only [matchAtoms, Bool.and_eq_true, Bool.or_eq_true]
    constructor
    · rintro ⟨hc, h | h⟩
      · obtain ⟨a, t, rfl, -, hall, hrest⟩ := ih.mp h
        refine ⟨c :: a, t, rfl, by simp, ?_, hrest⟩
        intro x hx
        rcases List.mem_cons.mp hx with rfl | hx
        · exact hc
        · exact hall x hx
      · exact ⟨[c], s, rfl, by simp, by simpa using hc, h⟩
    · rintro ⟨a, t, h, ha, hall, hrest⟩
      cases a with
      | nil => exact absurd rfl ha
      | cons x a =>
        simp only [List.cons_append, List.cons.injEq] at h
        obtain ⟨rfl, rfl⟩ := h
        refine ⟨hall c (List.mem_cons_self _ _), ?_⟩
        cases a with
        | nil => right; simpa using hrest
        | cons y a =>
          left
          exact ih.mpr ⟨y :: a, t, rfl, by simp,
            fun z hz => hall z (List.mem_cons_of_mem _ hz), hrest⟩

theorem notSpaceAt_iff (x : Nat) :
    notSpaceAt x = true ↔ isWhiteSpace x = false ∧ x ≠ 64 := by
  simp [notSpaceAt]

/-- The matcher run on the email pattern decides the shape the specification
words. -/
theorem matchAtoms_emailRegex (v : JSString) :
    matchAtoms emailRegex v = true ↔ EmailShape v := by
  unfold emailRegex EmailShape
  constructor
  · intro h
    obtain ⟨a, t1, rfl, ha, halla, h⟩ := (matchAtoms_plus _ _ _).mp h
    obtain ⟨c1, t2, rfl, hc1, h⟩ := (matchAtoms_one _ _ _).mp h
    obtain ⟨b, t3, rfl, hb, hallb, h⟩ := (matchAtoms_plus _ _ _).mp h
    obtain ⟨c2, t4, rfl, hc2, h⟩ := (matchAtoms_one _ _ _).mp h
    obtain ⟨c, t5, rfl, hc, hallc, h⟩ := (matchAtoms_plus _ _ _).mp h
    have h5 : t5 = [] := (matchAtoms_nil _).mp h
    subst h5
    have e1 : c1 = 64 := by simpa using hc1
    have e2 : c2 = 46 := by simpa using hc2
    subst e1 e2
    refine ⟨a, b, c, by simp, ha, hb, hc, ?_⟩
    intro x hx
    rcases List.mem_append.mp hx with hx | hx
    · rcases List.mem_append.mp hx with hx | hx
      · exact (notSpaceAt_iff x).mp (halla x hx)
      · exact (notSpaceAt_iff x).mp (hallb x hx)
    · exact (notSpaceAt_iff x).mp (hallc x hx)
  · rintro ⟨a, b, c, rfl, ha, hb, hc, hall⟩
    have hmem : ∀ l : JSString, (∀ x ∈ l, x ∈ a ++ b ++ c) →
        ∀ x ∈ l, notSpaceAt x = true :=
      fun l hl x hx => (notSpaceAt_iff x).mpr (hall x (hl x hx))
    refine (matchAtoms_plus _ _ _).mpr ⟨a, [64] ++ b ++ [46] ++ c, by simp, ha,
      hmem a (fun x hx => by simp [hx]), ?_⟩
    refine (matchAtoms_one _ _ _).mpr ⟨64, b ++ [46] ++ c, by simp, by simp, ?_⟩
    refine (matchAtoms_plus _ _ _).mpr ⟨b, [46] ++ c, by simp, hb,
      hmem b (fun x hx => by simp [hx]), ?_⟩
    refine (matchAtoms_one _ _ _).mpr ⟨46, c, by simp, by simp, ?_⟩
    exact (matchAtoms_plus _ _ _).mpr ⟨c, [], by simp, hc,
      hmem c (fun x hx => by simp [hx]), (matchAtoms_nil _).mpr rfl⟩

/-! ## Auxiliary facts: trimming -/

theorem all_of_all_dropWhile (p : Nat → Bool) (l : List Nat)
    (h : ∀ x ∈ l.dropWhile p, p x = true) : ∀ x ∈ l, p x = true := by
  induction l with
  | nil => intro x hx; cases hx
  | cons a t ih =>
    by_cases ha : p a = true
    · rw [List.dropWhile_cons_of_pos ha] at h
      intro x hx
      rcases List.mem_cons.mp hx with rfl | hx
      · exact ha
      · exact ih h x hx
    · rw [List.dropWhile_cons_of_neg ha] at h
      exact absurd (h a (List.mem_cons_self _ _)) ha

/-- A value that trims to the empty string consists of white space only. -/
theorem all_whiteSpace_of_trim_eq_nil (v : JSString) (h : trim v = []) :
    ∀ x ∈ v, isWhiteSpace x = true := by
  unfold trim at h
  have h1 : (v.dropWhile isWhiteSpace).reverse.dropWhile isWhiteSpace = [] :=
    List.reverse_eq_nil_iff.mp h
  have h2 : ∀ x ∈ (v.dropWhile isWhiteSpace).reverse, isWhiteSpace x = true :=
    List.dropWhile_eq_nil_iff.mp h1
  exact all_of_all_dropWhile _ _ (fun x hx => h2 x (List.mem_reverse.mpr hx))

theorem trim_ne_nil_of_emailShape (v : JSString) (h : EmailShape v) : trim v ≠ [] := by
  obtain ⟨a, b, c, rfl, ha, -, -, hall⟩ := h
  intro ht
  cases a with
  | nil => exact ha rfl
  | cons x a =>
    have hx := all_whiteSpace_of_trim_eq_nil _ ht x (by simp)
    have hx2 := (hall x (by simp)).1
    rw [hx] at hx2
    cases hx2

/-! ## Auxiliary facts: the field validator -/

theorem clearError_showError (d : FieldDom) (msg : String) :
    d.clearError.showError msg =
      { value := d.value, ariaInvalid := some "true", errorClass := true,
        errorDiv := d.errorDiv.map (fun _ => { textContent := msg, show_ := true }) } := by
  cases d with
  | mk v a c e => cases e <;> rfl

theorem clearError_eq (d : FieldDom) :
    d.clearError =
      { value := d.value, ariaInvalid := none, errorClass := false,
        errorDiv := d.errorDiv.map (fun _ => { textContent := "", show_ := false }) } := by
  cases d with
  | mk v a c e => rfl

theorem set_set (s : FormState) (f : Field) (d e : FieldDom) :
    (s.set f d).set f e = s.set f e := by
  cases f <;> rfl

theorem show_after_clear (f : Field) (msg : String) (s : FormState) :
    showFieldError f msg (clearFieldError f s) = s.set f ((s.get f).clearError.showError msg) := by
  unfold showFieldError clearFieldError
  rw [get_set_same, set_set]

theorem validateField_of_some (f : Field) (vs : Field → List Rule) (s : FormState)
    (rule : Rule) (h : firstFailing (vs f) (s.get f).value = some rule) :
    validateField f vs s = (showFieldError f rule.message (clearFieldError f s), false) := by
  simp only [validateField, h]

theorem validateField_of_none (f : Field) (vs : Field → List Rule) (s : FormState)
    (h : firstFailing (vs f) (s.get f).value = none) :
    validateField f vs s = (clearFieldError f s, true) := by
  simp only [validateField, h]

/-- The state after `validateField` is the state before with the field replaced
by `validatedDom`. -/
theorem validateField_state (f : Field) (vs : Field → List Rule) (s : FormState) :
    (validateField f vs s).1 = s.set f (validatedDom vs f s) := by
  unfold validatedDom
  cases h : firstFailing (vs f) (s.get f).value with
  | none =>
    rw [validateField_of_none f vs s h]
    simp only [clearFieldError, clearError_eq]
  | some rule =>
    rw [validateField_of_some f vs s rule h]
    simp only [show_after_clear, clearError_showError]

theorem validateField_result (f : Field) (vs : Field → List Rule) (s : FormState) :
    (validateField f vs s).2 = (firstFailing (vs f) (s.get f).value).isNone := by
  cases h : firstFailing (vs f) (s.get f).value with
  | none => rw [validateField_of_none f vs s h]; rfl
  | some rule => rw [validateField_of_some f vs s rule h]; rfl

theorem failsShowing_of_some (f : Field) (s : FormState) (rule : Rule)
    (h : firstFailing (validators f) (s.get f).value = some rule) :
    FailsShowing f s rule.message := by
  unfold FailsShowing
  rw [validateField_of_some f validators s rule h]
  simp only [show_after_clear, get_set_same, clearError_showError, and_self]

theorem passes_of_none (f : Field) (s : FormState)
    (h : firstFailing (validators f) (s.get f).value = none) : Passes f s := by
  unfold Passes
  rw [validateField_of_none f validators s h]
  simp only [clearFieldError, get_set_same, clearError_eq, and_self]

/-! ## Auxiliary facts: the rule table -/

theorem exists_rule_of_message {o : Option Rule} {m : String}
    (h : o.map Rule.message = some m) : ∃ rule, o = some rule ∧ rule.message = m := by
  cases o with
  | none => simp at h
  | some r => exact ⟨r, rfl, by simpa using h⟩

theorem firstFailing_name_short (v : JSString) (h : (trim v).length < 2) :
    ∃ rule, firstFailing (validators Field.name) v = some rule ∧
      rule.message = "Name must be at least 2 characters long." := by
  apply exists_rule_of_message
  simp [firstFailing, validators, nameRules, h]

theorem firstFailing_name_long (v : JSString) (h : 2 ≤ (trim v).length) :
    firstFailing (validators Field.name) v = none := by
  have hne : trim v ≠ [] := by
    intro h0
    rw [h0] at h
    simp at h
  simp [firstFailing, validators, nameRules, h, hne]

theorem firstFailing_email_empty (v : JSString) (h : trim v = []) :
    ∃ rule, firstFailing (validators Field.email) v = some rule ∧
      rule.message = "Email is required." := by
  apply exists_rule_of_message
  simp [firstFailing, validators, emailRules, h]

theorem firstFailing_email_shape (v : JSString) (h : trim v ≠ [])
    (hs : matchAtoms emailRegex v = false) :
    ∃ rule, firstFailing (validators Field.email) v = some rule ∧
      rule.message = "Please enter a valid email address." := by
  apply exists_rule_of_message
  simp [firstFailing, validators, emailRules, h, hs]

theorem firstFailing_email_ok (v : JSString) (h : trim v ≠ [])
    (hs : matchAtoms emailRegex v = true) :
    firstFailing (validators Field.email) v = none := by
  simp [firstFailing, validators, emailRules, h, hs]

theorem firstFailing_message_empty (v : JSString) (h : trim v = []) :
    ∃ rule, firstFailing (validators Field.message) v = some rule ∧
      rule.message = "Message is required." := by
  apply exists_rule_of_message
  simp [firstFailing, validators, messageRules, h]

theorem firstFailing_message_short (v : JSString) (h : trim v ≠ [])
    (hl : (trim v).length < 10) :
    ∃ rule, firstFailing (validators Field.message) v = some rule ∧
      rule.message = "Message must be at least 10 characters long." := by
  apply exists_rule_of_message
  simp [firstFailing, validators, messageRules, h, hl]

theorem firstFailing_message_long (v : JSString) (h : 10 ≤ (trim v).length) :
    firstFailing (validators Field.message) v = none := by
  have hne : trim v ≠ [] := by
    intro h0
    rw [h0] at h
    simp at h
  simp [firstFailing, validators, messageRules, h, hne]

theorem matchAtoms_false_of_not_shape (v : JSString) (h : ¬ EmailShape v) :
    matchAtoms emailRegex v = false := by
  cases hm : matchAtoms emailRegex v with
  | false => rfl
  | true => exact absurd ((matchAtoms_emailRegex v).mp hm) h

/-- The rules of the table pass on a field exactly when the field is valid in
the sense of the spec. -/
theorem rulesPass_iff (s : FormState) (f : Field) :
    rulesPass s f = true ↔ FieldValid s f := by
  unfold rulesPass
  cases f with
  | name =>
    show (firstFailing (validators Field.name) s.name.value).isNone = true ↔
      2 ≤ (trim s.name.value).length
    constructor
    · intro h
      by_contra hlt
      obtain ⟨r, hr, -⟩ := firstFailing_name_short s.name.value (by omega)
      rw [hr] at h
      cases h
    · intro h
      rw [firstFailing_name_long _ h]
      rfl
  | email =>
    show (firstFailing (validators Field.email) s.email.value).isNone = true ↔
      EmailShape s.email.value
    constructor
    · intro h
      by_contra hns
      by_cases ht : trim s.email.value = []
      · obtain ⟨r, hr, -⟩ := firstFailing_email_empty _ ht
        rw [hr] at h
        cases h
      · obtain ⟨r, hr, -⟩ :=
          firstFailing_email_shape _ ht (matchAtoms_false_of_not_shape _ hns)
        rw [hr] at h
        cases h
    · intro h
      rw [firstFailing_email_ok _ (trim_ne_nil_of_emailShape _ h)
        ((matchAtoms_emailRegex _).mpr h)]
      rfl
  | message =>
    show (firstFailing (validators Field.message) s.message.value).isNone = true ↔
      10 ≤ (trim s.message.value).length
    constructor
    · intro h
      by_contra hlt
      by_cases ht : trim s.message.value = []
      · obtain ⟨r, hr, -⟩ := firstFailing_message_empty _ ht
        rw [hr] at h
        cases h
      · obtain ⟨r, hr, -⟩ := firstFailing_message_short _ ht (by omega)
        rw [hr] at h
        cases h
    · intro h
      rw [firstFailing_message_long _ h]
      rfl

/-! ## The field validator and the rule table: main statements -/

/-- C7. For every field, rule list and state, `validateField` clears the error
state of the field and returns `true` exactly when every rule passes on the
value; on `true` the field is left cleared, on `false` the field shows the
message of the first rule, in declared order, whose test is false; the returned
boolean and the resulting error state are the same from any other state with
the same value (and the same error container present or absent). -/
theorem C7_validateField_first_failing (f : Field) (vs : Field → List Rule)
    (s : FormState) :
    ((validateField f vs s).2 = true ↔
      ∀ rule ∈ vs f, rule.test (s.get f).value = true) ∧
    ((validateField f vs s).2 = true →
      (validateField f vs s).1 = clearFieldError f s ∧
      (validateField f vs s).1.get f =
        { value := (s.get f).value, ariaInvalid := none, errorClass := false,
          errorDiv := (s.get f).errorDiv.map
            (fun _ => { textContent := "", show_ := false }) }) ∧
    ((validateField f vs s).2 = false →
      ∃ pre rule post, vs f = pre ++ rule :: post ∧
        (∀ q ∈ pre, q.test (s.get f).value = true) ∧
        rule.test (s.get f).value = false ∧
        (validateField f vs s).1 = showFieldError f rule.message (clearFieldError f s) ∧
        (validateField f vs s).1.get f =
          { value := (s.get f).value, ariaInvalid := some "true", errorClass := true,
            errorDiv := (s.get f).errorDiv.map
              (fun _ => { textContent := rule.message, show_ := true }) }) ∧
    (∀ s2 : FormState, (s2.get f).value = (s.get f).value →
      (s2.get f).errorDiv.isSome = (s.get f).errorDiv.isSome →
      (validateField f vs s2).2 = (validateField f vs s).2 ∧
      (validateField f vs s2).1.get f = (validateField f vs s).1.get f) := by
  refine ⟨?_, ?_, ?_, ?_⟩
  · rw [validateField_result, Option.isNone_iff_eq_none]
    unfold firstFailing
    rw [List.find?_eq_none]
    constructor
    · intro h rule hr
      have := h rule hr
      simpa using this
    · intro h rule hr
      simp [h rule hr]
  · intro h
    rw [validateField_result, Option.isNone_iff_eq_none] at h
    rw [validateField_of_none f vs s h]
    refine ⟨rfl, ?_⟩
    simp only [clearFieldError, get_set_same, clearError_eq]
  · intro h
    rw [validateField_result] at h
    cases hff : firstFailing (vs f) (s.get f).value with
    | none => rw [hff] at h; cases h
    | some rule =>
      have hfind := hff
      unfold firstFailing at hfind
      obtain ⟨hp, pre, post, hsplit, hpre⟩ := List.find?_eq_some.mp hfind
      refine ⟨pre, rule, post, hsplit, ?_, by simpa using hp, ?_, ?_⟩
      · intro q hq
        have := hpre q hq
        simpa using this
      · rw [validateField_of_some f vs s rule hff]
      · rw [validateField_of_some f vs s rule hff]
        simp only [show_after_clear, get_set_same, clearError_showError]
  · intro s2 hv hd
    refine ⟨?_, ?_⟩
    · rw [validateField_result, validateField_result, hv]
    · rw [validateField_state, validateField_state, get_set_same, get_set_same]
      unfold validatedDom
      rw [hv]
      cases h1 : (s2.get f).errorDiv <;> cases h2 : (s.get f).errorDiv <;>
        simp [h1, h2] at hd <;> rfl

/-- C7 at concrete inputs: an empty name fails on the first name rule, a valid
email passes, and a stale error on the email field plays no part. -/
theorem C7_validateField_first_failing_witness :
    (∃ pre rule post, validators Field.name = pre ++ rule :: post ∧
        (∀ q ∈ pre, q.test ((sampleForm "" "a@b.co" "1234567890").get Field.name).value = true) ∧
        rule.test ((sampleForm "" "a@b.co" "1234567890").get Field.name).value = false ∧
        (validateField Field.name validators (sampleForm "" "a@b.co" "1234567890")).1 =
          showFieldError Field.name rule.message
            (clearFieldError Field.name (sampleForm "" "a@b.co" "1234567890")) ∧
        (validateField Field.name validators (sampleForm "" "a@b.co" "1234567890")).1.get
            Field.name =
          { value := ((sampleForm "" "a@b.co" "1234567890").get Field.name).value,
            ariaInvalid := some "true", errorClass := true,
            errorDiv := ((sampleForm "" "a@b.co" "1234567890").get Field.name).errorDiv.map
              (fun _ => { textContent := rule.message, show_ := true }) }) ∧
    ((validateField Field.email validators (sampleForm "" "a@b.co" "1234567890")).1 =
        clearFieldError Field.email (sampleForm "" "a@b.co" "1234567890") ∧
      (validateField Field.email validators (sampleForm "" "a@b.co" "1234567890")).1.get
          Field.email =
        { value := ((sampleForm "" "a@b.co" "1234567890").get Field.email).value,
          ariaInvalid := none, errorClass := false,
          errorDiv := ((sampleForm "" "a@b.co" "1234567890").get Field.email).errorDiv.map
            (fun _ => { textContent := "", show_ := false }) }) ∧
    ((validateField Field.email validators
          (showFieldError Field.email "stale" (sampleForm "" "a@b.co" "1234567890"))).2 =
        (validateField Field.email validators (sampleForm "" "a@b.co" "1234567890")).2 ∧
      (validateField Field.email validators
          (showFieldError Field.email "stale" (sampleForm "" "a@b.co" "1234567890"))).1.get
          Field.email =
        (validateField Field.email validators (sampleForm "" "a@b.co" "1234567890")).1.get
          Field.email) :=
  ⟨(C7_validateField_first_failing Field.name validators
      (sampleForm "" "a@b.co" "1234567890")).2.2.1 (by decide),
   (C7_validateField_first_failing Field.email validators
      (sampleForm "" "a@b.co" "1234567890")).2.1 (by decide),
   (C7_validateField_first_failing Field.email validators
      (sampleForm "" "a@b.co" "1234567890")).2.2.2
      (showFieldError Field.email "stale" (sampleForm "" "a@b.co" "1234567890"))
      (by decide) (by decide)⟩

/-- C4. For every email value: empty after trimming fails with the message
"Email is required."; non-empty after trimming but not of the email shape fails
with "Please enter a valid email address."; otherwise it passes.  The value
a@b.c passes and not-an-email fails. -/
theorem C4_email_rules (s : FormState) :
    (trim s.email.value = [] → FailsShowing Field.email s "Email is required.") ∧
    (trim s.email.value ≠ [] → ¬ EmailShape s.email.value →
      FailsShowing Field.email s "Please enter a valid email address.") ∧
    (trim s.email.value ≠ [] → EmailShape s.email.value → Passes Field.email s) ∧
    (s.email.value = utf16 "a@b.c" → Passes Field.email s) ∧
    (s.email.value = utf16 "not-an-email" →
      FailsShowing Field.email s "Please enter a valid email address.") := by
  have hshape : trim s.email.value ≠ [] → ¬ EmailShape s.email.value →
      FailsShowing Field.email s "Please enter a valid email address." := by
    intro h hs
    obtain ⟨r, hr, hm⟩ :=
      firstFailing_email_shape s.email.value h (matchAtoms_false_of_not_shape _ hs)
    exact hm ▸ failsShowing_of_some Field.email s r hr
  have hok : trim s.email.value ≠ [] → EmailShape s.email.value →
      Passes Field.email s := by
    intro h hs
    exact passes_of_none Field.email s
      (firstFailing_email_ok _ h ((matchAtoms_emailRegex _).mpr hs))
  refine ⟨?_, hshape, hok, ?_, ?_⟩
  · intro h
    obtain ⟨r, hr, hm⟩ := firstFailing_email_empty s.email.value h
    exact hm ▸ failsShowing_of_some Field.email s r hr
  · intro hv
    apply hok
    · rw [hv]; decide
    · rw [hv]; exact (matchAtoms_emailRegex _).mp (by decide)
  · intro hv
    apply hshape
    · rw [hv]; decide
    · rw [hv]
      intro hs
      exact absurd ((matchAtoms_emailRegex _).mpr hs) (by decide)

/-- C4 at concrete inputs: a blank value, the value not-an-email, a value with
a trailing blank, and the value a@b.c. -/
theorem C4_email_rules_witness :
    FailsShowing Field.email (sampleForm "Jo" "  " "1234567890") "Email is required." ∧
    FailsShowing Field.email (sampleForm "Jo" "a@b.co " "1234567890")
      "Please enter a valid email address." ∧
    Passes Field.email (sampleForm "Jo" "a@b.co" "1234567890") ∧
    Passes Field.email (sampleForm "Jo" "a@b.c" "1234567890") ∧
    FailsShowing Field.email (sampleForm "Jo" "not-an-email" "1234567890")
      "Please enter a valid email address." :=
  ⟨(C4_email_rules (sampleForm "Jo" "  " "1234567890")).1 (by decide),
   (C4_email_rules (sampleForm "Jo" "a@b.co " "1234567890")).2.1 (by decide)
     (fun hs => absurd ((matchAtoms_emailRegex _).mpr hs) (by decide)),
   (C4_email_rules (sampleForm "Jo" "a@b.co" "1234567890")).2.2.1 (by decide)
     ((matchAtoms_emailRegex _).mp (by decide)),
   (C4_email_rules (sampleForm "Jo" "a@b.c" "1234567890")).2.2.2.1 (by decide),
   (C4_email_rules (sampleForm "Jo" "not-an-email" "1234567890")).2.2.2.2 (by decide)⟩

/-- C5. For every name value of trimmed length below 2 (the empty and the
blank value included) validation of the name fails showing "Name must be at
least 2 characters long." and the error container never holds "Name is
required."; for every name value of trimmed length at least 2 it passes. -/
theorem C5_name_length_rule (s : FormState) :
    ((trim s.name.value).length < 2 →
      FailsShowing Field.name s "Name must be at least 2 characters long." ∧
      ∀ e, ((validateField Field.name validators s).1.get Field.name).errorDiv = some e →
        e.textContent ≠ "Name is required.") ∧
    (2 ≤ (trim s.name.value).length → Passes Field.name s) := by
  constructor
  · intro h
    obtain ⟨r, hr, hm⟩ := firstFailing_name_short s.name.value h
    have hf : FailsShowing Field.name s "Name must be at least 2 characters long." :=
      hm ▸ failsShowing_of_some Field.name s r hr
    refine ⟨hf, ?_⟩
    intro e he
    rw [hf.2.2.1] at he
    cases hd : (s.get Field.name).errorDiv with
    | none => rw [hd] at he; cases he
    | some d =>
      rw [hd] at he
      simp only [Option.map_some', Option.some.injEq] at he
      rw [← he]
      decide
  · intro h
    exact passes_of_none Field.name s (firstFailing_name_long _ h)

/-- C5 at concrete inputs: the empty name, a blank name, a one-letter name and
the name Jo. -/
theorem C5_name_length_rule_witness :
    (FailsShowing Field.name (sampleForm "" "a@b.co" "1234567890")
        "Name must be at least 2 characters long." ∧
      ∀ e, ((validateField Field.name validators
          (sampleForm "" "a@b.co" "1234567890")).1.get Field.name).errorDiv = some e →
        e.textContent ≠ "Name is required.") ∧
    (FailsShowing Field.name (sampleForm "   " "a@b.co" "1234567890")
        "Name must be at least 2 characters long." ∧
      ∀ e, ((validateField Field.name validators
          (sampleForm "   " "a@b.co" "1234567890")).1.get Field.name).errorDiv = some e →
        e.textContent ≠ "Name is required.") ∧
    (FailsShowing Field.name (sampleForm " J " "a@b.co" "1234567890")
        "Name must be at least 2 characters long." ∧
      ∀ e, ((validateField Field.name validators
          (sampleForm " J " "a@b.co" "1234567890")).1.get Field.name).errorDiv = some e →
        e.textContent ≠ "Name is required.") ∧
    Passes Field.name (sampleForm "Jo" "a@b.co" "1234567890") :=
  ⟨(C5_name_length_rule (sampleForm "" "a@b.co" "1234567890")).1 (by decide),
   (C5_name_length_rule (sampleForm "   " "a@b.co" "1234567890")).1 (by decide),
   (C5_name_length_rule (sampleForm " J " "a@b.co" "1234567890")).1 (by decide),
   (C5_name_length_rule (sampleForm "Jo" "a@b.co" "1234567890")).2 (by decide)⟩

/-- C6 fails on the empty message: its trimmed length is below 10, and the
validation shows "Message is required.", not the length message. -/
theorem C6_message_rules_counterexample :
    (trim (sampleForm "Jo" "a@b.co" "").message.value).length < 10 ∧
    (validateField Field.message validators (sampleForm "Jo" "a@b.co" "")).2 = false ∧
    ((validateField Field.message validators
        (sampleForm "Jo" "a@b.co" "")).1.get Field.message).errorDiv =
      some { textContent := "Message is required.", show_ := true } ∧
    ¬ FailsShowing Field.message (sampleForm "Jo" "a@b.co" "")
      "Message must be at least 10 characters long." :=
  ⟨by decide, by decide, by decide, fun h => absurd h.2.2.1 (by decide)⟩

/-- C6, amended. For every message value of trimmed length below 10 validation
of the message fails; it shows "Message is required." when the value is empty
after trimming, and "Message must be at least 10 characters long." when the
trimmed value has between 1 and 9 code units. -/
theorem C6_message_rules_amended (s : FormState) :
    (trim s.message.value = [] → FailsShowing Field.message s "Message is required.") ∧
    (trim s.message.value ≠ [] → (trim s.message.value).length < 10 →
      FailsShowing Field.message s "Message must be at least 10 characters long.") := by
  constructor
  · intro h
    obtain ⟨r, hr, hm⟩ := firstFailing_message_empty s.message.value h
    exact hm ▸ failsShowing_of_some Field.message s r hr
  · intro h hl
    obtain ⟨r, hr, hm⟩ := firstFailing_message_short s.message.value h hl
    exact hm ▸ failsShowing_of_some Field.message s r hr

/-- C6 amended, at concrete inputs: the empty message, a blank message and a
message of nine characters. -/
theorem C6_message_rules_amended_witness :
    FailsShowing Field.message (sampleForm "Jo" "a@b.co" "") "Message is required." ∧
    FailsShowing Field.message (sampleForm "Jo" "a@b.co" " \n ") "Message is required." ∧
    FailsShowing Field.message (sampleForm "Jo" "a@b.co" "123456789")
      "Message must be at least 10 characters long." :=
  ⟨(C6_message_rules_amended (sampleForm "Jo" "a@b.co" "")).1 (by decide),
   (C6_message_rules_amended (sampleForm "Jo" "a@b.co" " \n ")).1 (by decide),
   (C6_message_rules_amended (sampleForm "Jo" "a@b.co" "123456789")).2
     (by decide) (by decide)⟩

/-! ## Auxiliary facts: the submission gate -/

theorem validateField_eq (f : Field) (vs : Field → List Rule) (s : FormState) :
    validateField f vs s =
      (s.set f (validatedDom vs f s), (firstFailing (vs f) (s.get f).value).isNone) := by
  rw [← validateField_state, ← validateField_result]

theorem validatedDom_set_other (vs : Field → List Rule) (f g : Field) (d : FieldDom)
    (s : FormState) (h : g ≠ f) :
    validatedDom vs g (s.set f d) = validatedDom vs g s := by
  unfold validatedDom
  rw [get_set_other s f g d h]

theorem firstFailing_some_split (rules : List Rule) (v : JSString) (rule : Rule)
    (h : firstFailing rules v = some rule) :
    ∃ pre post, rules = pre ++ rule :: post ∧ (∀ q ∈ pre, q.test v = true) ∧
      rule.test v = false := by
  unfold firstFailing at h
  obtain ⟨hp, pre, post, hsplit, hpre⟩ := List.find?_eq_some.mp h
  refine ⟨pre, post, hsplit, ?_, by simpa using hp⟩
  intro q hq
  have := hpre q hq
  simpa using this

theorem rulesPass_set_other (f g : Field) (d : FieldDom) (s : FormState) (h : g ≠ f) :
    rulesPass (s.set f d) g = rulesPass s g := by
  unfold rulesPass
  rw [get_set_other s f g d h]

theorem submitLoopBody_eq (acc : SubmitLoop) (f : Field) :
    submitLoopBody acc f =
      { state := acc.state.set f (validatedDom validators f acc.state),
        isValid := acc.isValid && rulesPass acc.state f,
        firstInvalidField :=
          if rulesPass acc.state f then acc.firstInvalidField
          else if acc.firstInvalidField.isNone then some f else acc.firstInvalidField } := by
  unfold submitLoopBody rulesPass
  rw [validateField_eq]
  cases (firstFailing (validators f) (acc.state.get f).value).isNone <;> simp

/-- The variables of the submit handler after its loop: every field has been
validated against the values it had before, whatever the other fields gave. -/
theorem submitLoop_eq (s : FormState) :
    submitLoop s =
      { state := { s with
          name := validatedDom validators Field.name s,
          email := validatedDom validators Field.email s,
          message := validatedDom validators Field.message s },
        isValid := rulesPass s Field.name && rulesPass s Field.email &&
          rulesPass s Field.message,
        firstInvalidField :=
          if !rulesPass s Field.name then some Field.name
          else if !rulesPass s Field.email then some Field.email
          else if !rulesPass s Field.message then some Field.message
          else none } := by
  unfold submitLoop fieldKeys
  rw [List.foldl_cons, List.foldl_cons, List.foldl_cons, List.foldl_nil]
  rw [submitLoopBody_eq, submitLoopBody_eq, submitLoopBody_eq]
  dsimp only
  rw [validatedDom_set_other _ _ _ _ _ (by decide : Field.email ≠ Field.name),
    validatedDom_set_other _ _ _ _ _ (by decide : Field.message ≠ Field.email),
    validatedDom_set_other _ _ _ _ _ (by decide : Field.message ≠ Field.name),
    rulesPass_set_other _ _ _ _ (by decide : Field.email ≠ Field.name),
    rulesPass_set_other _ _ _ _ (by decide : Field.message ≠ Field.email),
    rulesPass_set_other _ _ _ _ (by decide : Field.message ≠ Field.name)]
  cases rulesPass s Field.name <;> cases rulesPass s Field.email <;>
    cases rulesPass s Field.message <;> rfl

theorem validatedDom_of_pass (s : FormState) (f : Field) (h : rulesPass s f = true) :
    validatedDom validators f s =
      { value := (s.get f).value, ariaInvalid := none, errorClass := false,
        errorDiv := (s.get f).errorDiv.map
          (fun _ => { textContent := "", show_ := false }) } := by
  unfold rulesPass at h
  unfold validatedDom
  rw [Option.isNone_iff_eq_none.mp h]

theorem validatedDom_of_fail (s : FormState) (f : Field) (h : rulesPass s f = false) :
    ∃ rule, firstFailing (validators f) (s.get f).value = some rule ∧
      validatedDom validators f s =
        { value := (s.get f).value, ariaInvalid := some "true", errorClass := true,
          errorDiv := (s.get f).errorDiv.map
            (fun _ => { textContent := rule.message, show_ := true }) } := by
  unfold rulesPass at h
  unfold validatedDom
  cases hff : firstFailing (validators f) (s.get f).value with
  | none => rw [hff] at h; cases h
  | some rule => exact ⟨rule, rfl, rfl⟩

theorem feedbackClass_success : "form-feedback " ++ "success" = "form-feedback success" := by
  decide

theorem feedbackClass_error : "form-feedback " ++ "error" = "form-feedback error" := by
  decide

theorem showFeedback_none (message type : String) (s : FormState)
    (h : s.feedback = none) : showFeedback message type s = { state := s, raised := true } := by
  unfold showFeedback
  rw [h]

theorem showFeedback_success (s : FormState) (fb : Feedback) (h : s.feedback = some fb) :
    showFeedback successMessage "success" s =
      { state := { s with
          feedback := some { textContent := successMessage,
                             className := "form-feedback success" },
          timers := s.timers ++ [{ delay := 5000 }] },
        raised := false } := by
  unfold showFeedback
  rw [h]
  dsimp only
  rw [if_pos rfl, feedbackClass_success]

theorem showFeedback_error (s : FormState) (fb : Feedback) (h : s.feedback = some fb) :
    showFeedback failureMessage "error" s =
      { state := { s with
          feedback := some { textContent := failureMessage,
                             className := "form-feedback error" } },
        raised := false } := by
  unfold showFeedback
  rw [h]
  dsimp only
  rw [if_neg (by decide), feedbackClass_error]

theorem handleFormSuccess_none (s : FormState) (h : s.feedback = none) :
    handleFormSuccess s = { state := s, raised := true } := by
  unfold handleFormSuccess
  rw [showFeedback_none _ _ s h]
  rfl

theorem handleFormError_none (s : FormState) (h : s.feedback = none) :
    handleFormError s = { state := s, raised := true } := by
  unfold handleFormError
  rw [showFeedback_none _ _ s h]
  rfl

theorem handleFormSuccess_some (s : FormState) (fb : Feedback) (h : s.feedback = some fb) :
    handleFormSuccess s =
      { state := scrollFeedbackIntoView
          (fieldKeys.foldl (fun acc fieldName => clearFieldError fieldName acc)
            (formReset { s with
              feedback := some { textContent := successMessage,
                                 className := "form-feedback success" },
              timers := s.timers ++ [{ delay := 5000 }] })),
        raised := false } := by
  unfold handleFormSuccess
  rw [showFeedback_success s fb h]
  rfl

theorem handleFormError_some (s : FormState) (fb : Feedback) (h : s.feedback = some fb) :
    handleFormError s =
      { state := scrollFeedbackIntoView { s with
          feedback := some { textContent := failureMessage,
                             className := "form-feedback error" } },
        raised := false } := by
  unfold handleFormError
  rw [showFeedback_error s fb h]
  rfl

theorem submitLoop_feedback (s : FormState) : (submitLoop s).state.feedback = s.feedback := by
  rw [submitLoop_eq]

/-- The submit handler on a page without the feedback container: the fields
have been validated, then `showFeedback` throws and nothing else happens. -/
theorem submitHandler_raise (s : FormState) (hfb : s.feedback = none) :
    submitHandler s =
      { state := { s with
          name := validatedDom validators Field.name s,
          email := validatedDom validators Field.email s,
          message := validatedDom validators Field.message s },
        raised := true } := by
  have hL : (submitLoop s).state.feedback = none := by
    rw [submitLoop_feedback]; exact hfb
  unfold submitHandler
  dsimp only
  rw [handleFormSuccess_none _ hL, handleFormError_none _ hL, submitLoop_eq]
  dsimp only
  rw [if_pos (rfl : true = true), ite_self]

/-- The state an accepted submit leaves when the feedback container exists. -/
theorem submitHandler_accept (s : FormState) (h : ∀ f, rulesPass s f = true)
    (fb : Feedback) (hfb : s.feedback = some fb) :
    submitHandler s =
      { state :=
          { name := { value := [], ariaInvalid := none, errorClass := false,
                      errorDiv := s.name.errorDiv.map
                        (fun _ => { textContent := "", show_ := false }) },
            email := { value := [], ariaInvalid := none, errorClass := false,
                       errorDiv := s.email.errorDiv.map
                         (fun _ => { textContent := "", show_ := false }) },
            message := { value := [], ariaInvalid := none, errorClass := false,
                         errorDiv := s.message.errorDiv.map
                           (fun _ => { textContent := "", show_ := false }) },
            feedback := some { textContent := successMessage,
                               className := "form-feedback success" },
            focus := s.focus,
            timers := s.timers ++ [{ delay := 5000 }],
            feedbackScrolls := s.feedbackScrolls + 1 },
        raised := false } := by
  have hL : (submitLoop s).state.feedback = some fb := by
    rw [submitLoop_feedback]; exact hfb
  unfold submitHandler
  dsimp only
  rw [handleFormSuccess_some _ fb hL, submitLoop_eq]
  dsimp only
  rw [h Field.name, h Field.email, h Field.message, validatedDom_of_pass s _ (h Field.name),
    validatedDom_of_pass s _ (h Field.email), validatedDom_of_pass s _ (h Field.message)]
  rw [if_pos (by decide : (true && true && true) = true)]
  cases s with
  | mk n e m fb0 fo ti sc =>
    cases n with
    | mk nv na nc nd =>
      cases e with
      | mk ev ea ec ed =>
        cases m with
        | mk mv ma mc md =>
          cases nd <;> cases ed <;> cases md <;> rfl

/-- The state a rejected submit leaves when the feedback container exists. -/
theorem submitHandler_reject (s : FormState) (h : ∃ f, rulesPass s f = false)
    (fb : Feedback) (hfb : s.feedback = some fb) :
    submitHandler s =
      { state :=
          { name := validatedDom validators Field.name s,
            email := validatedDom validators Field.email s,
            message := validatedDom validators Field.message s,
            feedback := some { textContent := failureMessage,
                               className := "form-feedback error" },
            focus :=
              if !rulesPass s Field.name then some Field.name
              else if !rulesPass s Field.email then some Field.email
              else some Field.message,
            timers := s.timers,
            feedbackScrolls := s.feedbackScrolls + 1 },
        raised := false } := by
  have hL : (submitLoop s).state.feedback = some fb := by
    rw [submitLoop_feedback]; exact hfb
  unfold submitHandler
  dsimp only
  rw [handleFormError_some _ fb hL, submitLoop_eq]
  obtain ⟨f, hf⟩ := h
  cases h1 : rulesPass s Field.name <;> cases h2 : rulesPass s Field.email <;>
    cases h3 : rulesPass s Field.message <;>
    first
    | rfl
    | (cases f <;> simp [h1, h2, h3] at hf)

theorem validatedDom_value (vs : Field → List Rule) (f : Field) (s : FormState) :
    (validatedDom vs f s).value = (s.get f).value := by
  unfold validatedDom
  cases firstFailing (vs f) (s.get f).value <;> rfl

theorem rulesPass_all (s : FormState) (h : ∀ f, FieldValid s f) (f : Field) :
    rulesPass s f = true :=
  (rulesPass_iff s f).mpr (h f)

theorem rulesPass_false_of_not_valid (s : FormState) (f : Field) (h : ¬ FieldValid s f) :
    rulesPass s f = false := by
  cases hp : rulesPass s f with
  | false => rfl
  | true => exact absurd ((rulesPass_iff s f).mp hp) h

theorem rulesPass_some_false (s : FormState) (h : ∃ f, ¬ FieldValid s f) :
    ∃ f, rulesPass s f = false := by
  obtain ⟨f, hf⟩ := h
  exact ⟨f, rulesPass_false_of_not_valid s f hf⟩

/-- After a rejected submit every field is as its own validation leaves it,
whether or not the feedback container exists. -/
theorem get_submitHandler_reject (s : FormState) (h : ∃ f, ¬ FieldValid s f) (f : Field) :
    (submitHandler s).state.get f = validatedDom validators f s := by
  cases hfb : s.feedback with
  | none =>
    rw [submitHandler_raise s hfb]
    cases f <;> rfl
  | some fb =>
    rw [submitHandler_reject s (rulesPass_some_false s h) fb hfb]
    cases f <;> rfl

theorem fireTimer_feedback (t : FormState) (i : Nat) (hfb : t.feedback.isSome = true)
    (h : i < t.timers.length) :
    fireTimer i t =
      { state := { t with
          feedback := some { textContent := "", className := "form-feedback" },
          timers := t.timers.eraseIdx i },
        raised := false } := by
  unfold fireTimer clearFeedbackCallback
  rw [if_pos h]
  cases hf : t.feedback with
  | none => rw [hf] at hfb; cases hfb
  | some fb => rfl

theorem get_fireTimer (s : FormState) (i : Nat) (g : Field) :
    (fireTimer i s).state.get g = s.get g := by
  unfold fireTimer clearFeedbackCallback
  split
  · cases hf : s.feedback <;> cases g <;> rfl
  · rfl

/-! ## The submission gate: main statements -/

/-- C1 fails on a page without the feedback container.  Initialisation attaches
the submit listener there without throwing; with the three values Jo, a@b.co
and 1234567890, all valid, the submit handler throws in `showFeedback`; no
success text is shown, the values are not reset and no timer is scheduled. -/
theorem C1_submit_accepted_counterexample :
    (initContactForm pageWithoutFeedback).raised = false ∧
    Listener.submit ∈ (initContactForm pageWithoutFeedback).listeners ∧
    FieldValid (formWithoutFeedback "Jo" "a@b.co" "1234567890") Field.name ∧
    FieldValid (formWithoutFeedback "Jo" "a@b.co" "1234567890") Field.email ∧
    FieldValid (formWithoutFeedback "Jo" "a@b.co" "1234567890") Field.message ∧
    (submitHandler (formWithoutFeedback "Jo" "a@b.co" "1234567890")).raised = true ∧
    (submitHandler (formWithoutFeedback "Jo" "a@b.co" "1234567890")).state.feedback = none ∧
    ((submitHandler (formWithoutFeedback "Jo" "a@b.co" "1234567890")).state.get
      Field.name).value = utf16 "Jo" ∧
    (submitHandler (formWithoutFeedback "Jo" "a@b.co" "1234567890")).state.timers = [] :=
  ⟨by decide, by decide,
   (rulesPass_iff _ _).mp (by decide), (rulesPass_iff _ _).mp (by decide),
   (rulesPass_iff _ _).mp (by decide), by decide, by decide, by decide, by decide⟩

/-- C1, amended. When the feedback container exists and all three fields are
valid, the submit handler does not throw, shows the success feedback, resets
the three values to the empty string, leaves every field without an error, and
schedules the clearing of the feedback after 5000 ms; when that timer fires
the feedback text is empty. -/
theorem C1_submit_accepted_amended (s : FormState) (hfb : s.feedback.isSome = true)
    (h : ∀ f, FieldValid s f) :
    (submitHandler s).raised = false ∧
    (submitHandler s).state.feedback =
      some { textContent := successMessage, className := "form-feedback success" } ∧
    (∀ f, (submitHandler s).state.get f =
      { value := [], ariaInvalid := none, errorClass := false,
        errorDiv := (s.get f).errorDiv.map
          (fun _ => { textContent := "", show_ := false }) }) ∧
    (submitHandler s).state.timers = s.timers ++ [{ delay := 5000 }] ∧
    (fireTimer s.timers.length (submitHandler s).state).state.feedback =
      some { textContent := "", className := "form-feedback" } ∧
    (∀ t : FormState, ∀ i, t.feedback.isSome = true → i < t.timers.length →
      (fireTimer i t).state.feedback =
        some { textContent := "", className := "form-feedback" }) := by
  have hgen : ∀ t : FormState, ∀ i, t.feedback.isSome = true → i < t.timers.length →
      (fireTimer i t).state.feedback =
        some { textContent := "", className := "form-feedback" } := by
    intro t i ht hi
    rw [fireTimer_feedback t i ht hi]
  cases hf : s.feedback with
  | none => rw [hf] at hfb; cases hfb
  | some fb =>
    have hs := submitHandler_accept s (rulesPass_all s h) fb hf
    refine ⟨?_, ?_, ?_, ?_, ?_, hgen⟩
    · rw [hs]
    · rw [hs]
    · intro f
      rw [hs]
      cases f <;> rfl
    · rw [hs]
    · apply hgen
      · rw [hs]; rfl
      · rw [hs]; simp

/-- C1 amended, at the input of the spec: name Jo, email a@b.co, message
1234567890, on a page with the feedback container. -/
theorem C1_submit_accepted_amended_witness :
    (submitHandler (sampleForm "Jo" "a@b.co" "1234567890")).raised = false ∧
    (submitHandler (sampleForm "Jo" "a@b.co" "1234567890")).state.feedback =
      some { textContent := successMessage, className := "form-feedback success" } ∧
    (∀ f, (submitHandler (sampleForm "Jo" "a@b.co" "1234567890")).state.get f =
      { value := [], ariaInvalid := none, errorClass := false,
        errorDiv := ((sampleForm "Jo" "a@b.co" "1234567890").get f).errorDiv.map
          (fun _ => { textContent := "", show_ := false }) }) ∧
    (submitHandler (sampleForm "Jo" "a@b.co" "1234567890")).state.timers =
      (sampleForm "Jo" "a@b.co" "1234567890").timers ++ [{ delay := 5000 }] ∧
    (fireTimer (sampleForm "Jo" "a@b.co" "1234567890").timers.length
      (submitHandler (sampleForm "Jo" "a@b.co" "1234567890")).state).state.feedback =
        some { textContent := "", className := "form-feedback" } ∧
    (fireTimer 0 (submitHandler (sampleForm "Jo" "a@b.co" "1234567890")).state).state.feedback =
      some { textContent := "", className := "form-feedback" } :=
  have h := C1_submit_accepted_amended (sampleForm "Jo" "a@b.co" "1234567890") (by decide)
    (fun f => (rulesPass_iff _ f).mp (by cases f <;> decide))
  ⟨h.1, h.2.1, h.2.2.1, h.2.2.2.1, h.2.2.2.2.1, h.2.2.2.2.2 _ 0 (by decide) (by decide)⟩

/-- C2 fails on a page without the feedback container.  Initialisation attaches
the submit listener there without throwing; with the name empty and the other
two values valid, the submit handler throws in `showFeedback`; no failure text
is shown and the focus does not move to the name. -/
theorem C2_submit_rejected_counterexample :
    (initContactForm pageWithoutFeedback).raised = false ∧
    Listener.submit ∈ (initContactForm pageWithoutFeedback).listeners ∧
    ¬ FieldValid (formWithoutFeedback "" "a@b.co" "1234567890") Field.name ∧
    (submitHandler (formWithoutFeedback "" "a@b.co" "1234567890")).raised = true ∧
    (submitHandler (formWithoutFeedback "" "a@b.co" "1234567890")).state.feedback = none ∧
    (submitHandler (formWithoutFeedback "" "a@b.co" "1234567890")).state.focus = none ∧
    (submitHandler (formWithoutFeedback "" "a@b.co" "1234567890")).state.focus ≠
      some Field.name :=
  ⟨by decide, by decide,
   fun hv => absurd ((rulesPass_iff _ _).mpr hv) (by decide),
   by decide, by decide, by decide, by decide⟩

/-- C2, amended. When the feedback container exists and at least one field is
invalid, the submit handler does not throw, shows the failure feedback "Please
fix the errors below and try again.", keeps the three values, and moves focus
to the first invalid field in the order name, email, message. -/
theorem C2_submit_rejected_amended (s : FormState) (hfb : s.feedback.isSome = true)
    (h : ∃ f, ¬ FieldValid s f) :
    (submitHandler s).raised = false ∧
    (submitHandler s).state.feedback =
      some { textContent := "Please fix the errors below and try again.",
             className := "form-feedback error" } ∧
    (∀ f, ((submitHandler s).state.get f).value = (s.get f).value) ∧
    (¬ FieldValid s Field.name → (submitHandler s).state.focus = some Field.name) ∧
    (FieldValid s Field.name → ¬ FieldValid s Field.email →
      (submitHandler s).state.focus = some Field.email) ∧
    (FieldValid s Field.name → FieldValid s Field.email →
      ¬ FieldValid s Field.message ∧
      (submitHandler s).state.focus = some Field.message) := by
  cases hf : s.feedback with
  | none => rw [hf] at hfb; cases hfb
  | some fb =>
    have hs := submitHandler_reject s (rulesPass_some_false s h) fb hf
    refine ⟨?_, ?_, ?_, ?_, ?_, ?_⟩
    · rw [hs]
    · rw [hs]; rfl
    · intro f
      rw [get_submitHandler_reject s h, validatedDom_value]
    · intro hn
      rw [hs]
      simp [rulesPass_false_of_not_valid s _ hn]
    · intro hn he
      rw [hs]
      simp [(rulesPass_iff s _).mpr hn, rulesPass_false_of_not_valid s _ he]
    · intro hn he
      refine ⟨?_, ?_⟩
      · obtain ⟨f, hf⟩ := h
        cases f with
        | name => exact absurd hn hf
        | email => exact absurd he hf
        | message => exact hf
      · rw [hs]
        simp [(rulesPass_iff s _).mpr hn, (rulesPass_iff s _).mpr he]

/-- C2 amended, at concrete inputs on a page with the feedback container: with
the name empty and the rest valid the focus goes to the name; with only the
email wrong, to the email; with only the message short, to the message. -/
theorem C2_submit_rejected_amended_witness :
    ((submitHandler (sampleForm "" "a@b.co" "1234567890")).raised = false ∧
      (submitHandler (sampleForm "" "a@b.co" "1234567890")).state.feedback =
        some { textContent := "Please fix the errors below and try again.",
               className := "form-feedback error" } ∧
      (∀ f, ((submitHandler (sampleForm "" "a@b.co" "1234567890")).state.get f).value =
        ((sampleForm "" "a@b.co" "1234567890").get f).value) ∧
      (submitHandler (sampleForm "" "a@b.co" "1234567890")).state.focus = some Field.name) ∧
    (submitHandler (sampleForm "Jo" "a@b" "1234567890")).state.focus = some Field.email ∧
    (¬ FieldValid (sampleForm "Jo" "a@b.co" "short") Field.message ∧
      (submitHandler (sampleForm "Jo" "a@b.co" "short")).state.focus = some Field.message) :=
  have hn : ¬ FieldValid (sampleForm "" "a@b.co" "1234567890") Field.name :=
    fun hv => absurd ((rulesPass_iff _ _).mpr hv) (by decide)
  have he : ¬ FieldValid (sampleForm "Jo" "a@b" "1234567890") Field.email :=
    fun hv => absurd ((rulesPass_iff _ _).mpr hv) (by decide)
  have hm : ¬ FieldValid (sampleForm "Jo" "a@b.co" "short") Field.message :=
    fun hv => absurd ((rulesPass_iff _ _).mpr hv) (by decide)
  have h1 := C2_submit_rejected_amended (sampleForm "" "a@b.co" "1234567890")
    (by decide) ⟨Field.name, hn⟩
  have h2 := C2_submit_rejected_amended (sampleForm "Jo" "a@b" "1234567890")
    (by decide) ⟨Field.email, he⟩
  have h3 := C2_submit_rejected_amended (sampleForm "Jo" "a@b.co" "short")
    (by decide) ⟨Field.message, hm⟩
  ⟨⟨h1.1, h1.2.1, h1.2.2.1, h1.2.2.2.1 hn⟩,
   h2.2.2.2.2.1 ((rulesPass_iff _ _).mp (by decide)) he,
   h3.2.2.2.2.2 ((rulesPass_iff _ _).mp (by decide)) ((rulesPass_iff _ _).mp (by decide))⟩

/-- C3. The submit handler does not short-circuit: after a rejected submit
every field carries the outcome of its own validation, whatever the earlier
fields gave and whatever error state it had before.  A valid field shows no
error; an invalid field shows the message of its first failing rule. -/
theorem C3_submit_validates_every_field (s : FormState) (h : ∃ f, ¬ FieldValid s f)
    (f : Field) :
    (submitHandler s).state.get f = (validateField f validators s).1.get f ∧
    (FieldValid s f →
      (submitHandler s).state.get f =
        { value := (s.get f).value, ariaInvalid := none, errorClass := false,
          errorDiv := (s.get f).errorDiv.map
            (fun _ => { textContent := "", show_ := false }) }) ∧
    (¬ FieldValid s f →
      ∃ pre rule post, validators f = pre ++ rule :: post ∧
        (∀ q ∈ pre, q.test (s.get f).value = true) ∧
        rule.test (s.get f).value = false ∧
        (submitHandler s).state.get f =
          { value := (s.get f).value, ariaInvalid := some "true", errorClass := true,
            errorDiv := (s.get f).errorDiv.map
              (fun _ => { textContent := rule.message, show_ := true }) }) := by
  have hg := get_submitHandler_reject s h f
  refine ⟨?_, ?_, ?_⟩
  · rw [hg, validateField_state, get_set_same]
  · intro hv
    rw [hg, validatedDom_of_pass s f ((rulesPass_iff s f).mpr hv)]
  · intro hv
    obtain ⟨rule, hff, hd⟩ := validatedDom_of_fail s f (rulesPass_false_of_not_valid s f hv)
    obtain ⟨pre, post, hsplit, hpre, hrule⟩ := firstFailing_some_split _ _ _ hff
    exact ⟨pre, rule, post, hsplit, hpre, hrule, by rw [hg, hd]⟩

/-- C3 at concrete inputs: name empty, email and message valid, a stale error
left on the email field.  The name shows its own error, the email shows none. -/
theorem C3_submit_validates_every_field_witness :
    ((submitHandler (showFieldError Field.email "stale"
        (sampleForm "" "a@b.co" "1234567890"))).state.get Field.email =
      { value := ((showFieldError Field.email "stale"
          (sampleForm "" "a@b.co" "1234567890")).get Field.email).value,
        ariaInvalid := none, errorClass := false,
        errorDiv := ((showFieldError Field.email "stale"
          (sampleForm "" "a@b.co" "1234567890")).get Field.email).errorDiv.map
            (fun _ => { textContent := "", show_ := false }) }) ∧
    (∃ pre rule post, validators Field.name = pre ++ rule :: post ∧
      (∀ q ∈ pre, q.test ((showFieldError Field.email "stale"
        (sampleForm "" "a@b.co" "1234567890")).get Field.name).value = true) ∧
      rule.test ((showFieldError Field.email "stale"
        (sampleForm "" "a@b.co" "1234567890")).get Field.name).value = false ∧
      (submitHandler (showFieldError Field.email "stale"
          (sampleForm "" "a@b.co" "1234567890"))).state.get Field.name =
        { value := ((showFieldError Field.email "stale"
            (sampleForm "" "a@b.co" "1234567890")).get Field.name).value,
          ariaInvalid := some "true", errorClass := true,
          errorDiv := ((showFieldError Field.email "stale"
            (sampleForm "" "a@b.co" "1234567890")).get Field.name).errorDiv.map
              (fun _ => { textContent := rule.message, show_ := true }) }) :=
  have hn : ¬ FieldValid (showFieldError Field.email "stale"
      (sampleForm "" "a@b.co" "1234567890")) Field.name :=
    fun hv => absurd ((rulesPass_iff _ _).mpr hv) (by decide)
  ⟨(C3_submit_validates_every_field _ ⟨Field.name, hn⟩ Field.email).2.1
      ((rulesPass_iff _ _).mp (by decide)),
   (C3_submit_validates_every_field _ ⟨Field.name, hn⟩ Field.name).2.2 hn⟩

/-! ## Auxiliary facts: error display and markers -/

theorem rule_message_ne_empty (f : Field) (rule : Rule) (h : rule ∈ validators f) :
    rule.message ≠ "" := by
  cases f <;>
    simp only [validators, nameRules, emailRules, messageRules, List.mem_cons,
      List.mem_singleton, List.not_mem_nil, or_false] at h <;>
    rcases h with rfl | rfl <;> decide

theorem sound_clearError (d : FieldDom) (h : d.errorDiv.isSome = true) :
    d.clearError.Sound := by
  cases d with
  | mk v a c e =>
    cases e with
    | none => cases h
    | some e =>
      refine ⟨rfl, ?_, ?_⟩ <;>
        simp [FieldDom.clearError, FieldDom.errorDisplayed, FieldDom.markedInvalid]

theorem sound_showError (d : FieldDom) (msg : String) (h : d.errorDiv.isSome = true)
    (hm : msg ≠ "") : (d.showError msg).Sound := by
  cases d with
  | mk v a c e =>
    cases e with
    | none => cases h
    | some e =>
      refine ⟨rfl, ?_, ?_⟩ <;>
        simp [FieldDom.showError, FieldDom.errorDisplayed, FieldDom.markedInvalid, hm]

theorem sound_setValue (d : FieldDom) (v : JSString) (h : d.Sound) :
    FieldDom.Sound { d with value := v } := h

theorem sound_validatedDom (s : FormState) (f : Field)
    (h : (s.get f).errorDiv.isSome = true) : (validatedDom validators f s).Sound := by
  have hc := sound_clearError (s.get f) h
  rw [clearError_eq] at hc
  unfold validatedDom
  cases hff : firstFailing (validators f) (s.get f).value with
  | none => exact hc
  | some rule =>
    have hmem : rule ∈ validators f := by
      unfold firstFailing at hff
      exact List.mem_of_find?_eq_some hff
    have hs := sound_showError (s.get f).clearError rule.message hc.1
      (rule_message_ne_empty f rule hmem)
    rw [clearError_showError] at hs
    exact hs

theorem sound_of_noError (d : FieldDom) (h : d.NoError) (hd : d.errorDiv.isSome = true) :
    d.Sound := by
  obtain ⟨h1, h2, h3⟩ := h
  cases d with
  | mk v a c e =>
    cases e with
    | none => cases hd
    | some e =>
      obtain ⟨ht, hsh⟩ := h1 e rfl
      have h3c : c = false := h3
      subst h3c
      have h2c : FieldDom.markedInvalid
          { value := v, ariaInvalid := a, errorClass := false, errorDiv := some e } = false := h2
      refine ⟨rfl, ?_, ?_⟩
      · rw [h2c]
        simp [FieldDom.errorDisplayed, ht, hsh]
      · rw [h2c]

/-- Why the transition through `showFieldError` carries a non-empty message: with
the empty message the container is visible and the markers are set, but the
container has no text. -/
theorem showError_empty_message (d : FieldDom) (h : d.errorDiv.isSome = true) :
    (d.showError "").markedInvalid = true ∧ (d.showError "").errorDisplayed = false := by
  cases d with
  | mk v a c e =>
    cases e with
    | none => cases h
    | some e => exact ⟨rfl, rfl⟩

/-- One transition keeps a field with an error container sound. -/
theorem sound_step (s t : FormState) (hst : FormStep s t) (g : Field)
    (h : (s.get g).Sound) : (t.get g).Sound := by
  cases hst with
  | validate f =>
    rw [validateField_state]
    by_cases hg : g = f
    · subst hg
      rw [get_set_same]
      exact sound_validatedDom s g h.1
    · rw [get_set_other _ _ _ _ hg]; exact h
  | blur f =>
    unfold blurHandler
    rw [validateField_state]
    by_cases hg : g = f
    · subst hg
      rw [get_set_same]
      exact sound_validatedDom s g h.1
    · rw [get_set_other _ _ _ _ hg]; exact h
  | showError f msg _ hmsg =>
    rw [get_showFieldError]
    by_cases hg : g = f
    · subst hg
      rw [if_pos rfl]
      exact sound_showError _ _ h.1 hmsg
    · rw [if_neg hg]; exact h
  | clearError f =>
    rw [get_clearFieldError]
    by_cases hg : g = f
    · subst hg
      rw [if_pos rfl]
      exact sound_clearError _ h.1
    · rw [if_neg hg]; exact h
  | input f =>
    unfold inputHandler
    rw [get_clearFieldError]
    by_cases hg : g = f
    · subst hg
      rw [if_pos rfl]
      exact sound_clearError _ h.1
    · rw [if_neg hg]; exact h
  | submit =>
    cases hfb : s.feedback with
    | none =>
      rw [submitHandler_raise s hfb]
      cases g <;> exact sound_validatedDom s _ h.1
    | some fb =>
      by_cases hall : ∀ f, rulesPass s f = true
      · rw [submitHandler_accept s hall fb hfb]
        have hc := sound_clearError (s.get g) h.1
        rw [clearError_eq] at hc
        cases g <;> exact sound_setValue _ [] hc
      · have hex : ∃ f, rulesPass s f = false := by
          by_contra hne
          apply hall
          intro f
          cases hp : rulesPass s f with
          | true => rfl
          | false => exact absurd ⟨f, hp⟩ hne
        rw [submitHandler_reject s hex fb hfb]
        cases g <;> exact sound_validatedDom s _ h.1
  | edit f v =>
    unfold editValue
    by_cases hg : g = f
    · subst hg
      rw [get_set_same]
      exact sound_setValue _ v h
    · rw [get_set_other _ _ _ _ hg]; exact h
  | timer i =>
    rw [get_fireTimer]
    exact h

theorem sound_reachable (s t : FormState) (hst : FormReachable s t) (g : Field)
    (h : (s.get g).Sound) : (t.get g).Sound := by
  induction hst with
  | refl => exact h
  | tail _ hstep ih => exact sound_step _ _ hstep g ih

/-! ## Error display and markers: main statements -/

/-- C8 fails on a page whose name control has no error container: no error is
shown at first, one validation of the empty name is a reachable step, and then
the control carries `aria-invalid="true"` and the class `error` while no error
container displays anything. -/
theorem C8_display_and_markers_counterexample :
    NoErrorsShown formWithoutNameErrorDiv ∧
    FormReachable formWithoutNameErrorDiv
      (validateField Field.name validators formWithoutNameErrorDiv).1 ∧
    ((validateField Field.name validators formWithoutNameErrorDiv).1.get
        Field.name).markedInvalid = true ∧
    ((validateField Field.name validators formWithoutNameErrorDiv).1.get
        Field.name).errorClass = true ∧
    ((validateField Field.name validators formWithoutNameErrorDiv).1.get
        Field.name).errorDisplayed = false ∧
    ¬ ((validateField Field.name validators formWithoutNameErrorDiv).1.get
        Field.name).Agree := by
  refine ⟨?_, ?_, by decide, by decide, by decide, ?_⟩
  · intro f
    cases f
    · exact ⟨fun e he => (by cases he), by decide, by decide⟩
    · exact ⟨fun e he => (by cases he; exact ⟨rfl, rfl⟩), by decide, by decide⟩
    · exact ⟨fun e he => (by cases he; exact ⟨rfl, rfl⟩), by decide, by decide⟩
  · exact Relation.ReflTransGen.single (FormStep.validate Field.name _)
  · intro h
    exact absurd (h.1.mpr (by decide)) (by decide)

/-- C8, amended. For every field whose error container exists in the page, in
every state reachable from a state with no error shown (through validation,
the error presenter, the blur and input handlers, the submit handler, edits and
timers)
the error container has text and the class `show` exactly when the control has
`aria-invalid="true"`, and that exactly when the control has the class
`error`. -/
theorem C8_display_and_markers_amended (s0 s : FormState) (h0 : NoErrorsShown s0)
    (hr : FormReachable s0 s) (f : Field) (hf : (s0.get f).errorDiv.isSome = true) :
    (s.get f).Agree :=
  (sound_reachable s0 s hr f (sound_of_noError _ (h0 f) hf)).2

/-- C8 amended, at a concrete run: a rejected submit of an empty name, then an
edit of the name and its input event. -/
theorem C8_display_and_markers_amended_witness :
    ((submitHandler (sampleForm "" "a@b.co" "1234567890")).state.get Field.name).Agree ∧
    ((inputHandler Field.name (editValue Field.name (utf16 "J")
      (submitHandler (sampleForm "" "a@b.co" "1234567890")).state)).get Field.name).Agree :=
  have h0 : NoErrorsShown (sampleForm "" "a@b.co" "1234567890") := fun f => by
    cases f <;> exact ⟨fun e he => (by cases he; exact ⟨rfl, rfl⟩), by decide, by decide⟩
  ⟨C8_display_and_markers_amended _ _ h0
      (Relation.ReflTransGen.single (FormStep.submit _)) Field.name (by decide),
   C8_display_and_markers_amended _ _ h0
      (((Relation.ReflTransGen.single (FormStep.submit _)).tail
        (FormStep.edit Field.name (utf16 "J") _)).tail (FormStep.input Field.name _))
      Field.name (by decide)⟩

/-! ## Initialisation: main statements -/

/-- C9 fails on a page that has the form but not the name control:
`initContactForm` raises.  It also fails on a page that lacks only the feedback
container: nothing is raised, and all seven listeners are attached. -/
theorem C9_init_missing_element_counterexample :
    (pageWithoutNameInput.someAbsent = true ∧
      (initContactForm pageWithoutNameInput).raised = true) ∧
    (pageWithoutFeedback.someAbsent = true ∧
      initContactForm pageWithoutFeedback =
        { listeners := [Listener.blur Field.name, Listener.input Field.name,
                        Listener.blur Field.email, Listener.input Field.email,
                        Listener.blur Field.message, Listener.input Field.message,
                        Listener.submit],
          raised := false }) := by
  decide

/-- C9, amended. For every page in which the form element itself is absent,
`initContactForm` completes without raising and attaches no listener. -/
theorem C9_init_missing_form_amended (p : Page) (h : p.form = false) :
    initContactForm p = { listeners := [], raised := false } := by
  unfold initContactForm
  rw [h]
  rfl

/-- C9 amended, on a page that has everything but the form. -/
theorem C9_init_missing_form_amended_witness :
    initContactForm pageWithoutForm = { listeners := [], raised := false } :=
  C9_init_missing_form_amended pageWithoutForm rfl

/-! ## Mobile navigation: main statements -/

theorem allAre_toggleClick (d : NavDom) (b : Bool) (h : d.AllAre b) :
    (navStep d NavEvent.toggleClick).AllAre (!b) := by
  obtain ⟨t, m, ht, hm, h1, h2, h3⟩ := h
  cases d with
  | mk dt dm df =>
    simp only at ht hm
    subst ht hm
    refine ⟨{ ariaExpanded := some (if (t.ariaExpanded == some "true") then "false" else "true"),
              active := !t.active }, { active := !m.active }, rfl, rfl, ?_, ?_, ?_⟩
    · rw [h1]
    · rw [h2]
    · unfold NavToggle.expanded at h3 ⊢
      simp only
      rw [h3]
      cases b <;> decide

theorem closed_allAre (d : NavDom) (h : d.Closed) : d.AllAre false := by
  obtain ⟨t, m, ht, hm, h1, h2, h3⟩ := h
  refine ⟨t, m, ht, hm, h1, h2, ?_⟩
  unfold NavToggle.expanded
  rw [h3]
  decide

theorem navStep_other (d : NavDom) (h : d.Consistent) (e : NavEvent)
    (he : e ≠ NavEvent.toggleClick) : navStep d e = d ∨ (navStep d e).Closed := by
  obtain ⟨b, t, m, ht, hm, h1, h2, h3⟩ := h
  cases d with
  | mk dt dm df =>
    simp only at ht hm
    subst ht hm
    cases e with
    | toggleClick => exact absurd rfl he
    | navLinkClick linkInMenu =>
      right
      cases linkInMenu <;> exact ⟨_, _, rfl, rfl, rfl, rfl, rfl⟩
    | outsideClick =>
      right
      exact ⟨_, _, rfl, rfl, rfl, rfl, rfl⟩
    | escapeKey =>
      cases m with
      | mk mact =>
        cases mact with
        | false => left; rfl
        | true => right; exact ⟨_, _, rfl, rfl, rfl, rfl, rfl⟩
    | resize w =>
      by_cases hw : w > 768
      · right
        simp only [navStep, resizeListener, if_pos hw]
        exact ⟨_, _, rfl, rfl, rfl, rfl, rfl⟩
      · left
        simp only [navStep, resizeListener, if_neg hw]

theorem consistent_navStep (d : NavDom) (h : d.Consistent) (e : NavEvent) :
    (navStep d e).Consistent := by
  by_cases he : e = NavEvent.toggleClick
  · subst he
    obtain ⟨b, hb⟩ := h
    exact ⟨!b, allAre_toggleClick d b hb⟩
  · rcases navStep_other d h e he with heq | hc
    · rw [heq]; exact h
    · exact ⟨false, closed_allAre _ hc⟩

theorem consistent_foldl (evs : List NavEvent) (d : NavDom) (h : d.Consistent) :
    (evs.foldl navStep d).Consistent := by
  induction evs generalizing d with
  | nil => exact h
  | cons e rest ih => exact ih (navStep d e) (consistent_navStep d h e)

/-- C10. If the class `active` of the menu, the class `active` of the toggle
and `aria-expanded === "true"` agree, they agree after every sequence of toggle
clicks, link clicks, outside clicks, Escape presses and resize callbacks; a
toggle click flips all three; each of the other events leaves the state as it
was or sets all three to closed. -/
theorem C10_nav_state_consistent (d : NavDom) (h : d.Consistent) :
    (∀ evs : List NavEvent, (evs.foldl navStep d).Consistent) ∧
    (∀ b, d.AllAre b → (navStep d NavEvent.toggleClick).AllAre (!b)) ∧
    (∀ e, e ≠ NavEvent.toggleClick → navStep d e = d ∨ (navStep d e).Closed) :=
  ⟨fun evs => consistent_foldl evs d h, allAre_toggleClick d, navStep_other d h⟩

/-- C10 on a closed menu: a run of six events keeps the three indicators in
agreement, one toggle click opens all three, an Escape press on the closed menu
changes nothing or closes. -/
theorem C10_nav_state_consistent_witness :
    ([NavEvent.toggleClick, NavEvent.resize 500, NavEvent.toggleClick,
      NavEvent.toggleClick, NavEvent.escapeKey, NavEvent.navLinkClick true].foldl
        navStep closedNav).Consistent ∧
    (navStep closedNav NavEvent.toggleClick).AllAre true ∧
    (navStep closedNav NavEvent.escapeKey = closedNav ∨
      (navStep closedNav NavEvent.escapeKey).Closed) :=
  have hc : closedNav.AllAre false := ⟨_, _, rfl, rfl, rfl, rfl, by decide⟩
  have h := C10_nav_state_consistent closedNav ⟨false, hc⟩
  ⟨h.1 _, h.2.1 false hc, h.2.2 NavEvent.escapeKey (by decide)⟩

end RoyaltyStudioz
